import Mathlib

/-!
Shallow embedding of the voice calendar assistant (src/app.tsx) and proofs
about its transcript extractors and session controller.

The source file contains two component variants:
* `VoiceCalendarAssistant` — extractor `processNaturalLanguage`, writes to the
  Google-Calendar event store (`addEvent`), reloads the events cache on a
  successful submit;
* `App` — extractor `processTranscript`, writes to the reminder store
  (`addReminder`), reloads the reminders cache on a successful submit.

JavaScript values that may be `undefined` (out-of-range array indexing) are
modelled with `Option`; the injectable clock (`new Date().toISOString()`'s
date part) is a `today : String` parameter; external collaborators
(reminder store, event store, AI responder, the `natural` date recogniser)
are modelled from the spec's interface contracts, as noted on each
definition.
-/

/-- A draft entry as returned by both extractors: the JS object
`{date, time, text}`. `date`/`time` are `Option String` because
`words[i+1]` in `processTranscript` can be `undefined` when the keyword is
the last token; `none` models the JS value `undefined`. -/
structure Draft where
  date : Option String
  time : Option String
  text : String
  deriving DecidableEq, Repr

/-- Embedding of JS `transcript.split(' ')` restricted to a single-char
separator: `""` splits to `[""]`, consecutive separators produce empty
tokens, exactly as `String.prototype.split` does. -/
def splitOnChar (sep : Char) : List Char → List (List Char)
  | [] => [[]]
  | c :: cs =>
    let r := splitOnChar sep cs
    if c == sep then [] :: r
    else
      match r with
      | [] => [[c]]
      | w :: ws => (c :: w) :: ws

/-- The token list `transcript.split(' ')` of `processTranscript`. -/
def jsWords (s : String) : List String :=
  (splitOnChar ' ' s.data).map (fun l => String.mk l)

/-- Embedding of JS `Array.prototype.indexOf`: index of the first
occurrence, `none` standing for JS `-1`. -/
def firstIndexOf : List String → String → Option Nat
  | [], _ => none
  | w :: ws, x => if w = x then some 0 else (firstIndexOf ws x).map (· + 1)

/-- Embedding of `processTranscript` (src/app.tsx lines 380–392): split the
transcript on single spaces, take the token after the first `"on"` as the
date and the token after the first `"at"` as the time, defaulting to the
current date (`today`, the injectable clock) and `"12:00"`; `text` is the
verbatim transcript. `words[i+1]` past the end is JS `undefined`,
i.e. `none`. -/
def processTranscript (today : String) (transcript : String) : Draft :=
  let words := jsWords transcript
  { date :=
      match firstIndexOf words "on" with
      | some i => words[i+1]?
      | none => some today
    time :=
      match firstIndexOf words "at" with
      | some i => words[i+1]?
      | none => some "12:00"
    text := transcript }

/-- One step of the JS regex `/(\d{1,2}):(\d{2})/` anchored at the head of
the character list: greedily try two digits, `':'`, two digits; otherwise
one digit, `':'`, two digits. Returns the matched characters. At a fixed
start position the two alternatives are mutually exclusive (the second
character cannot be both a digit and `':'`), so this is exactly the regex's
behaviour at that position. -/
def matchTimeAt : List Char → Option (List Char)
  | a :: b :: c :: d :: e :: _ =>
    if a.isDigit && b.isDigit && c == ':' && d.isDigit && e.isDigit then
      some [a, b, c, d, e]
    else if a.isDigit && b == ':' && c.isDigit && d.isDigit then
      some [a, b, c, d]
    else none
  | [a, b, c, d] =>
    if a.isDigit && b == ':' && c.isDigit && d.isDigit then
      some [a, b, c, d]
    else none
  | _ => none

/-- Leftmost-match scan of the regex `/(\d{1,2}):(\d{2})/`: try each start
position from the left, as `String.prototype.match` does. -/
def scanTime : List Char → Option (List Char)
  | [] => none
  | c :: rest =>
    match matchTimeAt (c :: rest) with
    | some m => some m
    | none => scanTime rest

/-- Embedding of `text.match(/(\d{1,2}):(\d{2})/)`'s full-match component
(`timeMatch[0]`). -/
def jsTimeMatch (s : String) : Option String :=
  (scanTime s.data).map (fun l => String.mk l)

/-- Embedding of `processNaturalLanguage` (src/app.tsx lines 18–34).
`dp` is the date-phrase recogniser — modelled from the spec: the
`natural.DateParse` collaborator is external to the repository, so it is an
abstract parameter returning the recognised calendar date already in ISO
`YYYY-MM-DD` form (the source's `date.toISOString().split('T')[0]`), or
`none` when no date phrase is found (the source's falsy `date`). The
source also tokenizes the lower-cased text, but that token list does not
flow into the result, so it is omitted. The time is the first regex match
of `/(\d{1,2}):(\d{2})/` in the text, defaulting to `"12:00"`; `text` is
the verbatim input. -/
def processNaturalLanguage (dp : String → Option String) (today : String)
    (text : String) : Draft :=
  let time :=
    match jsTimeMatch text with
    | some t => t
    | none => "12:00"
  { date :=
      match dp text with
      | some d => some d
      | none => some today
    time := some time
    text := text }

/-- A date recogniser that never finds a date phrase; used to instantiate
theorems at concrete inputs. -/
def dpNone : String → Option String := fun _ => none

/-- Modelled from the spec: a Reminder Store entity (§6) — an opaque id and
a display text. The store code (`@/lib/calendarApi`) is not part of the
repository. -/
structure Reminder where
  id : Nat
  text : String
  deriving DecidableEq, Repr

/-- Modelled from the spec: an Event Store entity (§6) — an opaque id and a
display summary. The store code (`@/lib/googleCalendarApi`) is not part of
the repository. -/
structure CalEvent where
  id : Nat
  summary : String
  deriving DecidableEq, Repr

/-- Modelled from the spec: Reminder Store `create(DraftEntry) -> Reminder`
(§6) — appends a reminder with a fresh opaque id carrying the draft's text. -/
def addReminderStore (d : Draft) (s : List Reminder) : List Reminder :=
  s ++ [⟨s.length, d.text⟩]

/-- Modelled from the spec: Event Store `create` (§6) — appends an event
with a fresh opaque id carrying the draft's text as its summary. -/
def addEventStore (d : Draft) (s : List CalEvent) : List CalEvent :=
  s ++ [⟨s.length, d.text⟩]

/-- Modelled from the spec: Reminder Store `update(id, partial)` (§6). -/
def updateReminderStore (i : Nat) (txt : String) (s : List Reminder) :
    List Reminder :=
  s.map (fun r => if r.id = i then { r with text := txt } else r)

/-- Modelled from the spec: Reminder Store `delete(id)` (§6). -/
def deleteReminderStore (i : Nat) (s : List Reminder) : List Reminder :=
  s.filter (fun r => r.id ≠ i)

/-- Modelled from the spec: Event Store `update(id, partial)` (§6). -/
def updateEventStore (i : Nat) (txt : String) (s : List CalEvent) :
    List CalEvent :=
  s.map (fun e => if e.id = i then { e with summary := txt } else e)

/-- Modelled from the spec: Event Store `delete(id)` (§6). -/
def deleteEventStore (i : Nat) (s : List CalEvent) : List CalEvent :=
  s.filter (fun e => e.id ≠ i)

/-- The component state of `VoiceCalendarAssistant` (src/app.tsx lines
37–45): the `useState` hooks `isListening`, `transcript`, `reminders`,
`aiResponse`, `isLoading`, `events`. -/
structure V1State where
  isListening : Bool
  transcript : String
  reminders : List Reminder
  aiResponse : String
  isLoading : Bool
  events : List CalEvent
  deriving DecidableEq, Repr

/-- The component state of `App` (src/app.tsx lines 286–291): as above but
with no events list. -/
structure AppState where
  isListening : Bool
  transcript : String
  reminders : List Reminder
  aiResponse : String
  isLoading : Bool
  deriving DecidableEq, Repr

/-- The two external stores, as seen between the controller's calls. -/
structure World where
  remStore : List Reminder
  evStore : List CalEvent
  deriving DecidableEq, Repr

/-- Outcomes of the external calls made by one submit: whether the
store-create succeeds, what the AI responder replies (`none` models a
thrown error), and whether the subsequent `list()` reload succeeds. -/
structure SubmitEnv where
  createOk : Bool
  aiReply : Option String
  listOk : Bool
  deriving DecidableEq, Repr

/-- Tags for the external calls a pipeline performs, in order. -/
inductive ExtCall
  | storeCreate
  | aiQuery
  | storeList
  deriving DecidableEq, Repr

/-- The fixed user-facing failure message set in the `catch` block of both
`handleSubmit` variants. -/
def errorMessage : String := "Sorry, there was an error processing your request."

/-- Embedding of `handleSubmit` of `VoiceCalendarAssistant` (src/app.tsx
lines 92–115): set `isLoading`; extract a draft with
`processNaturalLanguage`; `addEvent`; `getAIResponse`; `setAiResponse`;
`loadEvents`; clear the transcript; on any thrown error the `catch` sets
`aiResponse` to `errorMessage` and the rest of the `try` block is skipped;
`finally` clears `isLoading`. Returns the new component state, the new
store world, and the trace of attempted external calls. -/
def handleSubmitV1 (dp : String → Option String) (today : String)
    (env : SubmitEnv) (st : V1State) (w : World) :
    V1State × World × List ExtCall :=
  let d := processNaturalLanguage dp today st.transcript
  if env.createOk then
    let w' := { w with evStore := addEventStore d w.evStore }
    match env.aiReply with
    | some reply =>
      if env.listOk then
        ({ st with
             aiResponse := reply
             events := w'.evStore
             transcript := ""
             isLoading := false }, w',
          [.storeCreate, .aiQuery, .storeList])
      else
        ({ st with aiResponse := errorMessage, isLoading := false }, w',
          [.storeCreate, .aiQuery, .storeList])
    | none =>
      ({ st with aiResponse := errorMessage, isLoading := false }, w',
        [.storeCreate, .aiQuery])
  else
    ({ st with aiResponse := errorMessage, isLoading := false }, w,
      [.storeCreate])

/-- Embedding of `handleSubmit` of `App` (src/app.tsx lines 340–363): as
`handleSubmitV1` but extracting with `processTranscript`, creating in the
reminder store (`addReminder`) and reloading the reminders cache
(`loadReminders`). -/
def handleSubmitApp (today : String) (env : SubmitEnv) (st : AppState)
    (store : List Reminder) : AppState × List Reminder × List ExtCall :=
  let d := processTranscript today st.transcript
  if env.createOk then
    let store' := addReminderStore d store
    match env.aiReply with
    | some reply =>
      if env.listOk then
        ({ st with
             aiResponse := reply
             reminders := store'
             transcript := ""
             isLoading := false }, store',
          [.storeCreate, .aiQuery, .storeList])
      else
        ({ st with aiResponse := errorMessage, isLoading := false }, store',
          [.storeCreate, .aiQuery, .storeList])
    | none =>
      ({ st with aiResponse := errorMessage, isLoading := false }, store',
        [.storeCreate, .aiQuery])
  else
    ({ st with aiResponse := errorMessage, isLoading := false }, store,
      [.storeCreate])

/-- The submit boundary of `App` (src/app.tsx line 407,
`<Button onClick={handleSubmit} disabled={isLoading}>`): a click while
`isLoading` is set does not invoke `handleSubmit` (a disabled button fires
no click handler), so the trigger is a no-op performing no external calls. -/
def submitTriggerApp (today : String) (env : SubmitEnv) (st : AppState)
    (store : List Reminder) : AppState × List Reminder × List ExtCall :=
  if st.isLoading then (st, store, []) else handleSubmitApp today env st store

/-- Outcomes of the external calls made by one edit/delete handler: whether
the store write succeeds and whether the subsequent `list()` reload
succeeds. Neither handler catches errors, so a failed write skips the
reload and a failed reload leaves the cache untouched. -/
structure EditEnv where
  opOk : Bool
  reloadOk : Bool
  deriving DecidableEq, Repr

/-- The operations of `VoiceCalendarAssistant` that can touch the cached
lists or the stores: submit, the mount-time `loadReminders` (src/app.tsx
line 60), the four edit/delete handlers (lines 122–130 and 137–145),
editing the transcript (a speech result or the text input), and
`toggleListening`. -/
inductive Op
  | submit (env : SubmitEnv)
  | initialLoad (ok : Bool)
  | updateRem (i : Nat) (txt : String) (env : EditEnv)
  | deleteRem (i : Nat) (env : EditEnv)
  | updateEv (i : Nat) (txt : String) (env : EditEnv)
  | deleteEv (i : Nat) (env : EditEnv)
  | editTranscript (s : String)
  | toggle
  deriving DecidableEq, Repr

/-- One controller operation of `VoiceCalendarAssistant` as a step on the
component state and the store world. Each edit/delete handler is the
store write followed by an unconditional reload of the corresponding
cached list (`handleUpdateReminder`, `handleDeleteReminder`,
`handleUpdateEvent`, `handleDeleteEvent`); the reload replaces the cache
with the full `list()` result or, when it fails, leaves the cache as it
was. -/
def stepV1 (dp : String → Option String) (today : String) :
    Op → V1State → World → V1State × World
  | .submit env, st, w =>
    let r := handleSubmitV1 dp today env st w
    (r.1, r.2.1)
  | .initialLoad ok, st, w =>
    (if ok then { st with reminders := w.remStore } else st, w)
  | .updateRem i txt env, st, w =>
    if env.opOk then
      let w' := { w with remStore := updateReminderStore i txt w.remStore }
      (if env.reloadOk then { st with reminders := w'.remStore } else st, w')
    else (st, w)
  | .deleteRem i env, st, w =>
    if env.opOk then
      let w' := { w with remStore := deleteReminderStore i w.remStore }
      (if env.reloadOk then { st with reminders := w'.remStore } else st, w')
    else (st, w)
  | .updateEv i txt env, st, w =>
    if env.opOk then
      let w' := { w with evStore := updateEventStore i txt w.evStore }
      (if env.reloadOk then { st with events := w'.evStore } else st, w')
    else (st, w)
  | .deleteEv i env, st, w =>
    if env.opOk then
      let w' := { w with evStore := deleteEventStore i w.evStore }
      (if env.reloadOk then { st with events := w'.evStore } else st, w')
    else (st, w)
  | .editTranscript s, st, w => ({ st with transcript := s }, w)
  | .toggle, st, w => ({ st with isListening := !st.isListening }, w)

/-- A browser keydown event as seen by the global key handler: its `code`
and whether a text-input element has focus at dispatch time. -/
structure KeyEvent where
  code : String
  inputFocused : Bool
  deriving DecidableEq, Repr

/-- Embedding of `handleKeyPress` (src/app.tsx lines 70–74 and 318–322):
the handler is bound globally on `window` and invokes `toggleListening`
iff `event.code === 'Space'`; it consults nothing about the focused
element, so its decision cannot depend on `inputFocused`. The result is
whether `toggleListening` fires. -/
def handleKeyPress (e : KeyEvent) : Bool := e.code == "Space"

theorem firstIndexOf_eq_none {x : String} :
    ∀ {l : List String}, x ∉ l → firstIndexOf l x = none
  | [], _ => rfl
  | w :: ws, h => by
    have hw : ¬ (w = x) := fun e => h (e ▸ List.mem_cons_self _ _)
    have hws : x ∉ ws := fun m => h (List.mem_cons_of_mem _ m)
    simp [firstIndexOf, hw, firstIndexOf_eq_none hws]

theorem firstIndexOf_append {x : String} :
    ∀ (l1 r : List String), x ∉ l1 →
      firstIndexOf (l1 ++ x :: r) x = some l1.length
  | [], r, _ => by simp [firstIndexOf]
  | w :: ws, r, h => by
    have hw : ¬ (w = x) := fun e => h (e ▸ List.mem_cons_self _ _)
    have hws : x ∉ ws := fun m => h (List.mem_cons_of_mem _ m)
    simp [firstIndexOf, hw, firstIndexOf_append ws r hws]

theorem firstIndexOf_lt_length {x : String} :
    ∀ {l : List String} {i : Nat}, firstIndexOf l x = some i → i < l.length
  | w :: ws, i, h => by
    by_cases hw : w = x
    · simp [firstIndexOf, hw] at h
      simp [List.length_cons]
      omega
    · simp [firstIndexOf, hw] at h
      obtain ⟨j, hj, rfl⟩ := h
      have := firstIndexOf_lt_length hj
      simp [List.length_cons]
      omega

theorem getElem?_append_length_add {α : Type} :
    ∀ (l1 l2 : List α) (k : Nat), (l1 ++ l2)[l1.length + k]? = l2[k]?
  | [], l2, k => by simp
  | a :: l1, l2, k => by
    have := getElem?_append_length_add l1 l2 k
    simpa [Nat.succ_add] using this

theorem getElem?_eq_none_of_length_le {α : Type} :
    ∀ {l : List α} {n : Nat}, l.length ≤ n → l[n]? = none
  | [], _, _ => rfl
  | _ :: l, n + 1, h => by
    simpa using getElem?_eq_none_of_length_le (Nat.le_of_succ_le_succ h)

theorem getElem?_isSome_of_lt {α : Type} :
    ∀ {l : List α} {n : Nat}, n < l.length → (l[n]?).isSome = true
  | a :: l, 0, _ => by simp
  | a :: l, n + 1, h => by
    simpa using getElem?_isSome_of_lt (Nat.lt_of_succ_lt_succ h)

theorem keywordField_none_iff (ws : List String) (x dflt : String) :
    ((match firstIndexOf ws x with
      | some i => ws[i + 1]?
      | none => some dflt) = none) ↔
      firstIndexOf ws x = some (ws.length - 1) := by
  cases h : firstIndexOf ws x with
  | none => simp [h]
  | some i =>
    have hi : i < ws.length := firstIndexOf_lt_length h
    simp only [h, Option.some.injEq]
    constructor
    · intro hnone
      by_contra hne
      have hlt : i + 1 < ws.length := by omega
      have := getElem?_isSome_of_lt hlt
      rw [hnone] at this
      simp at this
    · intro he
      subst he
      exact getElem?_eq_none_of_length_le (by omega)

theorem scanTime_none_of :
    ∀ (l : List Char), (∀ i, matchTimeAt (l.drop i) = none) → scanTime l = none
  | [], _ => rfl
  | c :: r, h => by
    have h0 : matchTimeAt (c :: r) = none := by simpa using h 0
    have hr : scanTime r = none :=
      scanTime_none_of r (fun i => by simpa using h (i + 1))
    simp [scanTime, h0, hr]

theorem scanTime_of_leftmost :
    ∀ (l : List Char) (i : Nat) (m : List Char),
      matchTimeAt (l.drop i) = some m →
      (∀ j, j < i → matchTimeAt (l.drop j) = none) →
      scanTime l = some m
  | [], i, m, h, _ => by
    rw [List.drop_nil] at h
    simp [matchTimeAt] at h
  | c :: r, 0, m, h, _ => by
    rw [List.drop_zero] at h
    simp [scanTime, h]
  | c :: r, i + 1, m, h, hmin => by
    have h0 : matchTimeAt (c :: r) = none := by simpa using hmin 0 (Nat.succ_pos i)
    have hr : scanTime r = some m :=
      scanTime_of_leftmost r i m (by simpa using h)
        (fun k hk => by simpa using hmin (k + 1) (Nat.succ_lt_succ hk))
    simp [scanTime, h0, hr]

theorem append_singleton_ne {α : Type} (l : List α) (x : α) : l ++ [x] ≠ l := by
  intro h
  have := congrArg List.length h
  simp at this

/-- Claim C1, counterexample: the claim is false as a universal statement.
`processTranscript` anchors on the *first* `"on"`/`"at"` tokens, so the
input `"on x on 2024-06-01 at 15:30"`, which does contain
`"on 2024-06-01 at 15:30"` as space-separated tokens, yields
`date = "x"` (the token after the first `"on"`), not `"2024-06-01"`. -/
theorem processTranscript_first_on_cex :
    jsWords "on x on 2024-06-01 at 15:30" =
      ["on", "x"] ++ ["on", "2024-06-01", "at", "15:30"] ++ [] ∧
    processTranscript "2024-01-01" "on x on 2024-06-01 at 15:30" ≠
      ⟨some "2024-06-01", some "15:30", "on x on 2024-06-01 at 15:30"⟩ ∧
    (processTranscript "2024-01-01" "on x on 2024-06-01 at 15:30").date =
      some "x" := by
  refine ⟨by decide, by decide, by decide⟩

/-- Claim C1 (amended): for every input string whose token list contains
`"on" :: D :: "at" :: T` consecutively, anchored at the first occurrences
of the keywords — no `"on"` or `"at"` token occurs earlier, and `D` is not
itself `"at"` — `processTranscript` returns `date = D`, `time = T`, and
the verbatim input as `text`. -/
theorem processTranscript_keyword_anchored (today s : String)
    (l1 l2 : List String) (D T : String)
    (hsplit : jsWords s = l1 ++ "on" :: D :: "at" :: T :: l2)
    (hon : "on" ∉ l1) (hat : "at" ∉ l1) (hD : D ≠ "at") :
    processTranscript today s = ⟨some D, some T, s⟩ := by
  have hdate : firstIndexOf (jsWords s) "on" = some l1.length := by
    rw [hsplit]; exact firstIndexOf_append l1 _ hon
  have hat2 : "at" ∉ l1 ++ ["on", D] := by
    intro hmem
    rcases List.mem_append.mp hmem with h | h
    · exact hat h
    · simp only [List.mem_cons, List.mem_singleton, List.not_mem_nil,
        or_false] at h
      rcases h with h | h
      · exact (by decide : ("at" : String) ≠ "on") h
      · exact hD h.symm
  have hsplit2 : jsWords s = (l1 ++ ["on", D]) ++ "at" :: T :: l2 := by
    rw [hsplit]; simp
  have htime : firstIndexOf (jsWords s) "at" = some (l1.length + 2) := by
    rw [hsplit2]
    have := firstIndexOf_append (l1 ++ ["on", D]) (T :: l2) hat2
    simpa using this
  have hgetD : (jsWords s)[l1.length + 1]? = some D := by
    rw [hsplit]
    have := getElem?_append_length_add l1 ("on" :: D :: "at" :: T :: l2) 1
    simpa using this
  have hgetT : (jsWords s)[l1.length + 3]? = some T := by
    rw [hsplit]
    have := getElem?_append_length_add l1 ("on" :: D :: "at" :: T :: l2) 3
    simpa using this
  simp only [processTranscript, hdate, htime]
  rw [show l1.length + 2 + 1 = l1.length + 3 from rfl]
  rw [hgetD, hgetT]

/-- Claim C1 witness: the spec's own example input, discharging the
amended theorem's hypotheses at a concrete token split. -/
theorem processTranscript_keyword_anchored_witness :
    processTranscript "2024-01-01" "remind me to call mom on 2024-06-01 at 15:30" =
      ⟨some "2024-06-01", some "15:30",
        "remind me to call mom on 2024-06-01 at 15:30"⟩ :=
  processTranscript_keyword_anchored "2024-01-01"
    "remind me to call mom on 2024-06-01 at 15:30"
    ["remind", "me", "to", "call", "mom"] [] "2024-06-01" "15:30"
    (by decide) (by decide) (by decide) (by decide)

/-- Claim C2: for every input string whose space-separated tokens include
neither `"on"` nor `"at"`, `processTranscript` returns the injectable
current date, the time `"12:00"`, and the verbatim input as `text`. -/
theorem processTranscript_defaults (today s : String)
    (hon : "on" ∉ jsWords s) (hat : "at" ∉ jsWords s) :
    processTranscript today s = ⟨some today, some "12:00", s⟩ := by
  simp only [processTranscript, firstIndexOf_eq_none hon,
    firstIndexOf_eq_none hat]

/-- Claim C2 witness: a concrete keyword-free input. -/
theorem processTranscript_defaults_witness :
    processTranscript "2024-01-01" "remind me to stretch" =
      ⟨some "2024-01-01", some "12:00", "remind me to stretch"⟩ :=
  processTranscript_defaults "2024-01-01" "remind me to stretch"
    (by decide) (by decide)

/-- Claim C3, counterexample: the claim is false as stated — on the input
`"on"` the keyword `"on"` is the last token, so `words[dateIndex + 1]` is
JS `undefined` and the returned `date` field is not a string. -/
theorem extraction_fields_cex :
    (processTranscript "2024-01-01" "on").date = none := by decide

/-- Claim C3 (amended): both extractors are total — for every string input
(including empty and whitespace-only strings) they return a draft whose
`text` is the verbatim, untrimmed input; `processNaturalLanguage` always
returns string `date` and `time` fields, and `processTranscript`'s `date`
(resp. `time`) field is a string in every case except when the first
`"on"` (resp. `"at"`) token is the final token, in which case that field
is JS `undefined`. -/
theorem extraction_total (dp : String → Option String) (today s : String) :
    (processNaturalLanguage dp today s).text = s ∧
    ((processNaturalLanguage dp today s).date).isSome = true ∧
    ((processNaturalLanguage dp today s).time).isSome = true ∧
    (processTranscript today s).text = s ∧
    ((processTranscript today s).date = none ↔
      firstIndexOf (jsWords s) "on" = some ((jsWords s).length - 1)) ∧
    ((processTranscript today s).time = none ↔
      firstIndexOf (jsWords s) "at" = some ((jsWords s).length - 1)) := by
  refine ⟨rfl, ?_, rfl, rfl, ?_, ?_⟩
  · cases h : dp s <;> simp [processNaturalLanguage, h]
  · simpa only [processTranscript] using
      keywordField_none_iff (jsWords s) "on" today
  · simpa only [processTranscript] using
      keywordField_none_iff (jsWords s) "at" "12:00"

/-- Claim C4: triggering submit while a submit is already in flight
(`isLoading` set, so the submit button is disabled) is a no-op — the state
and stores are unchanged and no external call occurs; and an accepted
submit performs at most one store-create call and at most one AI-query
call, so two submit pipelines are never in flight at once. -/
theorem submit_no_reentry (today : String) (env : SubmitEnv) (st : AppState)
    (store : List Reminder) :
    (st.isLoading = true → submitTriggerApp today env st store = (st, store, [])) ∧
    (submitTriggerApp today env st store).2.2.count .storeCreate ≤ 1 ∧
    (submitTriggerApp today env st store).2.2.count .aiQuery ≤ 1 := by
  refine ⟨fun h => by simp [submitTriggerApp, h], ?_, ?_⟩ <;>
  · rcases env with ⟨co, ar, lo⟩
    by_cases h : st.isLoading <;>
      cases co <;> rcases ar with _ | r <;> cases lo <;>
        simp [submitTriggerApp, handleSubmitApp, h, List.count_cons,
          List.count_nil]

/-- Claim C4 witness: a concrete in-flight state whose second trigger is
ignored. -/
theorem submit_no_reentry_witness :
    submitTriggerApp "2024-01-01" ⟨true, some "ok", true⟩
      ⟨false, "call mom", [], "", true⟩ [] =
      (⟨false, "call mom", [], "", true⟩, [], []) :=
  (submit_no_reentry "2024-01-01" ⟨true, some "ok", true⟩
      ⟨false, "call mom", [], "", true⟩ []).1 rfl

/-- Claim C5, counterexample: the claim is false as stated — a successful
submit of `VoiceCalendarAssistant` reloads only the events cache, never
the reminders cache, so from a pre-submit state whose reminders cache is
out of step with the reminder store (reachable when a reminder edit's
uncaught reload fails) the reminders cache still differs from what a
subsequent `list()` call would return. -/
theorem submit_success_refresh_cex :
    (handleSubmitV1 dpNone "2024-01-01" ⟨true, some "done", true⟩
        ⟨false, "call mom", [], "", false, []⟩ ⟨[⟨0, "x"⟩], []⟩).1.reminders ≠
    (handleSubmitV1 dpNone "2024-01-01" ⟨true, some "done", true⟩
        ⟨false, "call mom", [], "", false, []⟩ ⟨[⟨0, "x"⟩], []⟩).2.1.remStore := by
  decide

/-- Claim C5 (amended): for every submit in which the store-create call,
the AI-query call and the reload all succeed, the Transcript becomes the
empty string, the AI-response field equals the responder's reply, and the
one cached list the submit reloads equals exactly what a subsequent
`list()` call on its store would return — the events cache for
`VoiceCalendarAssistant`, the reminders cache for `App`; the other cached
list (`VoiceCalendarAssistant`'s reminders) is left unchanged. -/
theorem submit_success_state (dp : String → Option String) (today : String)
    (env : SubmitEnv) (st : V1State) (w : World) (st2 : AppState)
    (store2 : List Reminder) (reply : String)
    (hc : env.createOk = true) (ha : env.aiReply = some reply)
    (hl : env.listOk = true) :
    (handleSubmitV1 dp today env st w).1.transcript = "" ∧
    (handleSubmitV1 dp today env st w).1.aiResponse = reply ∧
    (handleSubmitV1 dp today env st w).1.events =
      (handleSubmitV1 dp today env st w).2.1.evStore ∧
    (handleSubmitV1 dp today env st w).1.reminders = st.reminders ∧
    (handleSubmitApp today env st2 store2).1.transcript = "" ∧
    (handleSubmitApp today env st2 store2).1.aiResponse = reply ∧
    (handleSubmitApp today env st2 store2).1.reminders =
      (handleSubmitApp today env st2 store2).2.1 := by
  simp [handleSubmitV1, handleSubmitApp, hc, ha, hl]

/-- Claim C5 witness: a concrete fully successful submit. -/
theorem submit_success_state_witness :
    (handleSubmitApp "2024-01-01" ⟨true, some "done", true⟩
        ⟨false, "call mom", [], "", false⟩ []).1.transcript = "" ∧
    (handleSubmitApp "2024-01-01" ⟨true, some "done", true⟩
        ⟨false, "call mom", [], "", false⟩ []).1.reminders =
      (handleSubmitApp "2024-01-01" ⟨true, some "done", true⟩
        ⟨false, "call mom", [], "", false⟩ []).2.1 := by
  have h := submit_success_state dpNone "2024-01-01" ⟨true, some "done", true⟩
    ⟨false, "x", [], "", false, []⟩ ⟨[], []⟩ ⟨false, "call mom", [], "", false⟩
    [] "done" rfl rfl rfl
  exact ⟨h.2.2.2.2.1, h.2.2.2.2.2.2⟩

/-- Claim C6: for every submit in which the store-create call fails, the
Transcript and the cached list are unchanged from their pre-submit values,
the AI-response field equals the fixed failure message, the store is
untouched, and no list reload is attempted (the call trace is exactly the
failed create); the error is absorbed by the `catch`, so the controller
returns normally. -/
theorem submit_create_failure (today : String) (env : SubmitEnv)
    (st : AppState) (store : List Reminder) (h : env.createOk = false) :
    handleSubmitApp today env st store =
      ({ st with aiResponse := errorMessage, isLoading := false }, store,
        [.storeCreate]) ∧
    (handleSubmitApp today env st store).1.transcript = st.transcript ∧
    (handleSubmitApp today env st store).1.reminders = st.reminders ∧
    (handleSubmitApp today env st store).2.2.count .storeList = 0 := by
  have he : handleSubmitApp today env st store =
      ({ st with aiResponse := errorMessage, isLoading := false }, store,
        [.storeCreate]) := by
    simp [handleSubmitApp, h]
  refine ⟨he, ?_, ?_, ?_⟩ <;> (rw [he]; try rfl)

/-- Claim C6 witness: a concrete failing create. -/
theorem submit_create_failure_witness :
    handleSubmitApp "2024-01-01" ⟨false, some "ok", true⟩
      ⟨false, "call mom", [⟨0, "x"⟩], "", false⟩ [⟨0, "x"⟩] =
      (⟨false, "call mom", [⟨0, "x"⟩], errorMessage, false⟩, [⟨0, "x"⟩],
        [.storeCreate]) :=
  (submit_create_failure "2024-01-01" ⟨false, some "ok", true⟩
      ⟨false, "call mom", [⟨0, "x"⟩], "", false⟩ [⟨0, "x"⟩] rfl).1

/-- Claim C7: the global space-key handler has no focus guard — on a
keydown with `code = "Space"` it invokes `toggleListening` even while a
text input has focus, and its decision is identical whether or not an
input is focused, contradicting the required behaviour that the space key
never toggle listening while the user is typing inside an input. -/
theorem space_toggles_while_typing :
    handleKeyPress ⟨"Space", true⟩ = true ∧
    handleKeyPress ⟨"Space", true⟩ = handleKeyPress ⟨"Space", false⟩ := by
  exact ⟨rfl, rfl⟩

/-- Claim C8: for every input, `processNaturalLanguage` returns as `time`
the leftmost substring matching `H:MM`/`HH:MM` (the regex
`/(\d{1,2}):(\d{2})/` — `matchTimeAt` at the earliest start position that
matches), or `"12:00"` when no position matches; and returns as `date` the
date-phrase recogniser's result when it finds one, falling back to the
injectable current date; `text` is the verbatim input. -/
theorem processNaturalLanguage_pattern_anchored (dp : String → Option String)
    (today s : String) :
    (processNaturalLanguage dp today s).date = some ((dp s).getD today) ∧
    ((∀ i, matchTimeAt (s.data.drop i) = none) →
      (processNaturalLanguage dp today s).time = some "12:00") ∧
    (∀ i m, matchTimeAt (s.data.drop i) = some m →
      (∀ j, j < i → matchTimeAt (s.data.drop j) = none) →
      (processNaturalLanguage dp today s).time = some (String.mk m)) ∧
    (processNaturalLanguage dp today s).text = s := by
  refine ⟨?_, ?_, ?_, rfl⟩
  · cases h : dp s <;> simp [processNaturalLanguage, h, Option.getD]
  · intro h
    have := scanTime_none_of s.data h
    simp [processNaturalLanguage, jsTimeMatch, this]
  · intro i m hm hmin
    have := scanTime_of_leftmost s.data i m hm hmin
    simp [processNaturalLanguage, jsTimeMatch, this]

/-- Claim C8 witness: a concrete input with a time pattern at position 4
and none earlier, and no date phrase. -/
theorem processNaturalLanguage_pattern_anchored_witness :
    (processNaturalLanguage dpNone "2024-01-01" "see 9:05 ok").time =
      some "9:05" ∧
    (processNaturalLanguage dpNone "2024-01-01" "see 9:05 ok").date =
      some "2024-01-01" := by
  refine ⟨(processNaturalLanguage_pattern_anchored dpNone "2024-01-01"
    "see 9:05 ok").2.2.1 4 ['9', ':', '0', '5'] (by decide) (by decide), ?_⟩
  exact (processNaturalLanguage_pattern_anchored dpNone "2024-01-01"
    "see 9:05 ok").1

/-- Claim C9: for every controller operation (submit with any outcome, the
mount-time load, every edit/delete handler with any outcome, transcript
edits, toggling), each cached list afterwards is either exactly its
previous value or exactly the corresponding store's full `list()` result —
a wholesale snapshot replacement, never an element-wise patch. -/
theorem cache_wholesale_snapshot (dp : String → Option String) (today : String)
    (op : Op) (st : V1State) (w : World) :
    ((stepV1 dp today op st w).1.reminders = st.reminders ∨
     (stepV1 dp today op st w).1.reminders =
       (stepV1 dp today op st w).2.remStore) ∧
    ((stepV1 dp today op st w).1.events = st.events ∨
     (stepV1 dp today op st w).1.events =
       (stepV1 dp today op st w).2.evStore) := by
  cases op with
  | submit env =>
    rcases env with ⟨co, ar, lo⟩
    cases co <;> rcases ar with _ | r <;> cases lo <;>
      simp [stepV1, handleSubmitV1]
  | initialLoad ok => cases ok <;> simp [stepV1]
  | updateRem i txt env =>
    rcases env with ⟨a, b⟩
    cases a <;> cases b <;> simp [stepV1]
  | deleteRem i env =>
    rcases env with ⟨a, b⟩
    cases a <;> cases b <;> simp [stepV1]
  | updateEv i txt env =>
    rcases env with ⟨a, b⟩
    cases a <;> cases b <;> simp [stepV1]
  | deleteEv i env =>
    rcases env with ⟨a, b⟩
    cases a <;> cases b <;> simp [stepV1]
  | editTranscript s => simp [stepV1]
  | toggle => simp [stepV1]

/-- Claim C10: for every submit in which the store-create succeeds but the
AI-query fails, the controller takes the failure path — Transcript
retained, AI-response set to the fixed failure message, cached list
untouched, no reload attempted — while the created entry persists in the
store (the write is not rolled back), so a cache that was in sync before
the submit is stale with respect to the store afterwards. Stated for both
`handleSubmit` variants. -/
theorem submit_ai_failure_stale (dp : String → Option String) (today : String)
    (env : SubmitEnv) (st : AppState) (store : List Reminder)
    (stv : V1State) (w : World)
    (hc : env.createOk = true) (ha : env.aiReply = none) :
    (handleSubmitApp today env st store).1.transcript = st.transcript ∧
    (handleSubmitApp today env st store).1.aiResponse = errorMessage ∧
    (handleSubmitApp today env st store).1.reminders = st.reminders ∧
    (handleSubmitApp today env st store).2.1 =
      addReminderStore (processTranscript today st.transcript) store ∧
    (handleSubmitApp today env st store).2.1 ≠ store ∧
    (handleSubmitApp today env st store).2.2.count .storeList = 0 ∧
    (st.reminders = store →
      (handleSubmitApp today env st store).1.reminders ≠
        (handleSubmitApp today env st store).2.1) ∧
    (handleSubmitV1 dp today env stv w).1.events = stv.events ∧
    (handleSubmitV1 dp today env stv w).2.1.evStore =
      addEventStore (processNaturalLanguage dp today stv.transcript) w.evStore ∧
    (stv.events = w.evStore →
      (handleSubmitV1 dp today env stv w).1.events ≠
        (handleSubmitV1 dp today env stv w).2.1.evStore) := by
  have heApp : handleSubmitApp today env st store =
      ({ st with aiResponse := errorMessage, isLoading := false },
        addReminderStore (processTranscript today st.transcript) store,
        [.storeCreate, .aiQuery]) := by
    simp [handleSubmitApp, hc, ha]
  have heV1 : handleSubmitV1 dp today env stv w =
      ({ stv with aiResponse := errorMessage, isLoading := false },
        { w with evStore := (addEventStore (processNaturalLanguage dp today stv.transcript) w.evStore) },
        [.storeCreate, .aiQuery]) := by
    simp [handleSubmitV1, hc, ha]
  rw [heApp, heV1]
  refine ⟨rfl, rfl, rfl, rfl, ?_, rfl, ?_, rfl, rfl, ?_⟩
  · exact append_singleton_ne store _
  · intro hsync
    rw [hsync]
    exact fun h => append_singleton_ne store _ h.symm
  · intro hsync
    rw [hsync]
    exact fun h => append_singleton_ne w.evStore _ h.symm

/-- Claim C10 witness: a concrete submit whose create succeeds and whose
AI query fails, leaving the transcript and a now-stale cache behind. -/
theorem submit_ai_failure_stale_witness :
    (handleSubmitApp "2024-01-01" ⟨true, none, true⟩
        ⟨false, "call mom", [], "", false⟩ []).1.transcript = "call mom" ∧
    (handleSubmitApp "2024-01-01" ⟨true, none, true⟩
        ⟨false, "call mom", [], "", false⟩ []).1.reminders ≠
      (handleSubmitApp "2024-01-01" ⟨true, none, true⟩
        ⟨false, "call mom", [], "", false⟩ []).2.1 := by
  have h := submit_ai_failure_stale dpNone "2024-01-01" ⟨true, none, true⟩
    ⟨false, "call mom", [], "", false⟩ [] ⟨false, "x", [], "", false, []⟩
    ⟨[], []⟩ rfl rfl
  exact ⟨h.1, h.2.2.2.2.2.2.1 rfl⟩
